import Mathlib

/-!
Shallow embedding, in Lean 4, of the session/context lifecycle engine of the
`vibe-coding` conversational-agent repository: the context window
(`src/agent/context_manager.py` with its `Message` model from
`src/agent/models.py`), the session store (`src/agent/state_manager.py`),
and the plugin registry (`src/agent/plugins/base.py`).

Modelling conventions:
- Python `datetime` instants are modelled as `Int` (a linear order of clock
  readings); `datetime.now()` becomes an explicit `now : Int` argument.
  `isoformat` / `fromisoformat` round-trip an instant exactly, so
  serialising a timestamp is modelled as keeping the `Int`.
- Python dicts used as key-value caches are modelled as function maps
  `String → Option α`.
- Exceptions are modelled with `Except` / `Option` error channels carrying
  the raised message; distinct exception classes become distinct
  constructors of an error type.
- The tokenizer (`tiktoken`) is an external collaborator; it is modelled as
  an arbitrary function `tok : String → Nat`, as the spec only states the
  generic token-budget contract.
-/

namespace VibeAgent

/-! ## Data model: `Message` (src/agent/models.py) -/

/-- The `role` field of `Message`, `Literal["user", "assistant", "system"]`. -/
inductive Role where
  | user
  | assistant
  | system
deriving DecidableEq, Repr

/-- The string value carried by a `Role` literal. -/
def Role.toString : Role → String
  | .user => "user"
  | .assistant => "assistant"
  | .system => "system"

/-- Parsing a role string back into the `Literal` type; pydantic rejects any
other string when a `Message` is constructed from raw data. -/
def Role.ofString? (s : String) : Option Role :=
  if s = "user" then some .user
  else if s = "assistant" then some .assistant
  else if s = "system" then some .system
  else none

/-- `metadata: dict[str, str] | None`. -/
abbrev Metadata := List (String × String)

/-- Python `str.strip()`: remove leading and trailing whitespace. -/
def pyStrip (s : String) : String :=
  ⟨((s.data.dropWhile Char.isWhitespace).reverse.dropWhile Char.isWhitespace).reverse⟩

/-- `Message.validate_content`: rejects content that is empty or
all-whitespace (`if not v or not v.strip(): raise ValueError`), and returns
the stripped content otherwise. -/
def validateContent (v : String) : Option String :=
  if pyStrip v = "" then none else some (pyStrip v)

/-- A conversation message (`Message` pydantic model): role, content,
creation timestamp, optional metadata. -/
structure Message where
  role : Role
  content : String
  timestamp : Int
  metadata : Option Metadata
deriving DecidableEq, Repr

/-- Constructing a `Message(role=…, content=…)`: the pydantic content
validator runs; the timestamp is supplied by the caller where the Python
default `datetime.now()` applies. -/
def mkMessage (role : Role) (content : String) (now : Int)
    (metadata : Option Metadata) : Option Message :=
  match validateContent content with
  | none => none
  | some c => some { role := role, content := c, timestamp := now, metadata := metadata }

/-! ## ContextManager (src/agent/context_manager.py) -/

/-- The mutable fields of `ContextManager` that its methods read and write:
the message list, the window size limit, and the model name. -/
structure ContextManager where
  messages : List Message
  maxMessages : Nat
  modelName : String
deriving Repr

/-- `ContextManager._count_message_tokens`: token count of role and content
plus a fixed structural overhead of 4, for a given tokenizer. -/
def countMessageTokens (tok : String → Nat) (m : Message) : Nat :=
  tok m.role.toString + tok m.content + 4

/-- Sum of `countMessageTokens` over a message list (as in
`ContextManager.get_total_tokens`). -/
def totalMessageTokens (tok : String → Nat) (l : List Message) : Nat :=
  (l.map (countMessageTokens tok)).sum

/-- The non-system messages of a list, in order
(`[msg for msg in self.messages if msg.role != "system"]`). -/
def nonSystemMessages (l : List Message) : List Message :=
  l.filter (fun m => m.role != Role.system)

/-- The system messages of a list, in order
(`[msg for msg in self.messages if msg.role == "system"]`). -/
def systemMessages (l : List Message) : List Message :=
  l.filter (fun m => m.role == Role.system)

/-- Number of non-system messages in a window. -/
def nonSystemCount (l : List Message) : Nat :=
  (nonSystemMessages l).length

/-- The eviction loop of `ContextManager.add_to_context`: scan from the
front and pop the first message whose role is not `"system"`; system
messages are skipped. If every message is a system message nothing is
removed. -/
def removeFirstNonSystem : List Message → List Message
  | [] => []
  | m :: rest =>
      if m.role = Role.system then m :: removeFirstNonSystem rest else rest

/-- `ContextManager.add_to_context`: append the message, then, if the count
of non-system messages exceeds `max_messages`, remove the oldest non-system
message. -/
def addToContext (maxMessages : Nat) (msgs : List Message) (message : Message) :
    List Message :=
  let appended := msgs ++ [message]
  if nonSystemCount appended > maxMessages then removeFirstNonSystem appended
  else appended

/-- The greedy selection loop of `ContextManager.get_context`: walk the
given messages (already reversed, most recent first) and include each one
while the running total stays within `max_tokens`; stop at the first
message that would exceed it. -/
def selectRecent (tok : String → Nat) (maxTokens : Nat) :
    Nat → List Message → List Message
  | _, [] => []
  | totalTokens, m :: rest =>
      if totalTokens + countMessageTokens tok m ≤ maxTokens then
        m :: selectRecent tok maxTokens (totalTokens + countMessageTokens tok m) rest
      else []

/-- Python sort key of `get_context`: `(msg.role != "system", msg.timestamp)`
compared lexicographically (`False < True`); rendered as the rank
`0` for system messages and `1` otherwise. -/
def sortRank (m : Message) : Nat :=
  if m.role = Role.system then 0 else 1

/-- The total preorder induced by the `get_context` sort key. -/
def msgKeyLe (a b : Message) : Prop :=
  sortRank a < sortRank b ∨ (sortRank a = sortRank b ∧ a.timestamp ≤ b.timestamp)

instance : DecidableRel msgKeyLe := fun a b =>
  inferInstanceAs
    (Decidable
      (sortRank a < sortRank b ∨ (sortRank a = sortRank b ∧ a.timestamp ≤ b.timestamp)))

instance : IsTotal Message msgKeyLe := by
  constructor
  intro a b
  unfold msgKeyLe
  omega

instance : IsTrans Message msgKeyLe := by
  constructor
  intro a b c hab hbc
  unfold msgKeyLe at *
  omega

/-- `ContextManager.get_context`: return `[]` for an empty window; otherwise
partition into system and other messages, always include every system
message (summing their token cost first), greedily add the most recent
other messages within the budget, and finally sort the selection by
`(role != "system", timestamp)`.  `list.sort` is Python's stable sort; a
stable sort under a total preorder is uniquely determined, so it is
modelled by insertion sort. -/
def getContext (tok : String → Nat) (maxTokens : Nat) (msgs : List Message) :
    List Message :=
  if msgs.isEmpty then []
  else
    let sys := systemMessages msgs
    let other := nonSystemMessages msgs
    let totalTokens := totalMessageTokens tok sys
    let resultMessages := sys ++ selectRecent tok maxTokens totalTokens other.reverse
    List.insertionSort msgKeyLe resultMessages

/-- The `get_context` method at the level of the manager object: it acquires
the lock, reads `self.messages`, builds fresh local lists (`filter`
comprehensions, `copy()`, appends and a sort of the local copy) and returns
them; no statement assigns to `self.messages`, `self.max_messages` or
`self.model_name`, so the manager state the method leaves behind has
exactly the fields it started with. -/
def ContextManager.getContextS (cm : ContextManager) (tok : String → Nat)
    (maxTokens : Nat) : List Message × ContextManager :=
  (getContext tok maxTokens cm.messages,
    { messages := cm.messages
      maxMessages := cm.maxMessages
      modelName := cm.modelName })

/-! ### Lemmas about eviction (claim C2) -/

theorem systemMessages_removeFirstNonSystem (l : List Message) :
    systemMessages (removeFirstNonSystem l) = systemMessages l := by
  induction l with
  | nil => rfl
  | cons m rest ih =>
      by_cases h : m.role = Role.system
      · have ih' := ih
        simp only [systemMessages] at ih' ⊢
        simp [removeFirstNonSystem, List.filter_cons, h, ih']
      · simp [removeFirstNonSystem, systemMessages, List.filter_cons, h]

theorem nonSystemCount_removeFirstNonSystem (l : List Message)
    (h : 0 < nonSystemCount l) :
    nonSystemCount (removeFirstNonSystem l) + 1 = nonSystemCount l := by
  induction l with
  | nil => simp [nonSystemCount, nonSystemMessages] at h
  | cons m rest ih =>
      by_cases hm : m.role = Role.system
      · have h' : 0 < nonSystemCount rest := by
          simpa [nonSystemCount, nonSystemMessages, List.filter_cons, hm] using h
        simpa [removeFirstNonSystem, nonSystemCount, nonSystemMessages,
          List.filter_cons, hm] using ih h'
      · simp [removeFirstNonSystem, nonSystemCount, nonSystemMessages,
          List.filter_cons, hm]

theorem length_removeFirstNonSystem (l : List Message)
    (h : 0 < nonSystemCount l) :
    (removeFirstNonSystem l).length + 1 = l.length := by
  induction l with
  | nil => simp [nonSystemCount, nonSystemMessages] at h
  | cons m rest ih =>
      by_cases hm : m.role = Role.system
      · have h' : 0 < nonSystemCount rest := by
          simpa [nonSystemCount, nonSystemMessages, List.filter_cons, hm] using h
        simpa [removeFirstNonSystem, hm] using ih h'
      · simp [removeFirstNonSystem, hm]

theorem removeFirstNonSystem_decomposition (l : List Message)
    (h : 0 < nonSystemCount l) :
    ∃ pre e post, l = pre ++ e :: post ∧
      removeFirstNonSystem l = pre ++ post ∧
      e.role ≠ Role.system ∧ ∀ x ∈ pre, x.role = Role.system := by
  induction l with
  | nil => simp [nonSystemCount, nonSystemMessages] at h
  | cons m rest ih =>
      by_cases hm : m.role = Role.system
      · have h' : 0 < nonSystemCount rest := by
          simpa [nonSystemCount, nonSystemMessages, List.filter_cons, hm] using h
        obtain ⟨pre, e, post, hl, hrm, he, hpre⟩ := ih h'
        refine ⟨m :: pre, e, post, by simp [hl], ?_, he, ?_⟩
        · simp [removeFirstNonSystem, hm, hrm]
        · intro x hx
          rcases List.mem_cons.mp hx with hx | hx
          · subst hx; exact hm
          · exact hpre x hx
      · exact ⟨[], m, rest, rfl, by simp [removeFirstNonSystem, hm], hm, by simp⟩

theorem nonSystemCount_append (l₁ l₂ : List Message) :
    nonSystemCount (l₁ ++ l₂) = nonSystemCount l₁ + nonSystemCount l₂ := by
  simp [nonSystemCount, nonSystemMessages, List.filter_append]

theorem nonSystemCount_addToContext (maxMessages : Nat) (msgs : List Message)
    (m : Message) (h : nonSystemCount msgs ≤ maxMessages) :
    nonSystemCount (addToContext maxMessages msgs m) =
      min (nonSystemCount msgs + nonSystemCount [m]) maxMessages := by
  unfold addToContext
  by_cases hgt : nonSystemCount (msgs ++ [m]) > maxMessages
  · have h1 := nonSystemCount_removeFirstNonSystem (msgs ++ [m]) (by omega)
    have h2 := nonSystemCount_append msgs [m]
    have h3 : nonSystemCount [m] ≤ 1 := by
      by_cases hm : m.role = Role.system <;>
        simp [nonSystemCount, nonSystemMessages, List.filter_cons, hm]
    simp only [hgt, if_pos]
    omega
  · have h2 := nonSystemCount_append msgs [m]
    simp only [hgt, if_neg, not_false_iff]
    omega

theorem nonSystemCount_foldl_addToContext (maxMessages : Nat) :
    ∀ (ms : List Message) (msgs0 : List Message),
      nonSystemCount msgs0 ≤ maxMessages →
      nonSystemCount (List.foldl (addToContext maxMessages) msgs0 ms) =
        min (nonSystemCount msgs0 + nonSystemCount ms) maxMessages := by
  intro ms
  induction ms with
  | nil =>
      intro msgs0 h
      have hnil : nonSystemCount ([] : List Message) = 0 := rfl
      simp only [List.foldl_nil]
      omega
  | cons m rest ih =>
      intro msgs0 h
      have hstep := nonSystemCount_addToContext maxMessages msgs0 m h
      have hle : nonSystemCount (addToContext maxMessages msgs0 m) ≤ maxMessages := by
        omega
      have := ih (addToContext maxMessages msgs0 m) hle
      have hcons := nonSystemCount_append [m] rest
      simp only [List.foldl_cons]
      rw [this, hstep]
      have : nonSystemCount (m :: rest) = nonSystemCount [m] + nonSystemCount rest := by
        simpa using hcons
      omega

/-- C2: starting from a window with no non-system turns, after every
sequence of single-turn appends the number of non-system turns equals
`min`(non-system turns appended so far, `max_messages`); moreover every
single append preserves the system turns, removes at most one turn, and
when it evicts, the evicted turn is the first non-system turn scanning from
the front (everything before it being a system turn). -/
theorem addToContext_window_invariant (maxMessages : Nat) (msgs0 : List Message)
    (h0 : nonSystemCount msgs0 = 0) (ms : List Message) :
    nonSystemCount (List.foldl (addToContext maxMessages) msgs0 ms) =
        min (nonSystemCount ms) maxMessages
    ∧ (∀ msgs m, systemMessages (addToContext maxMessages msgs m) =
        systemMessages (msgs ++ [m]))
    ∧ (∀ msgs m, msgs.length ≤ (addToContext maxMessages msgs m).length ∧
        (addToContext maxMessages msgs m).length ≤ msgs.length + 1)
    ∧ (∀ msgs m, nonSystemCount (msgs ++ [m]) > maxMessages →
        ∃ pre e post, msgs ++ [m] = pre ++ e :: post ∧
          addToContext maxMessages msgs m = pre ++ post ∧
          e.role ≠ Role.system ∧ ∀ x ∈ pre, x.role = Role.system) := by
  refine ⟨?_, ?_, ?_, ?_⟩
  · have := nonSystemCount_foldl_addToContext maxMessages ms msgs0 (by omega)
    omega
  · intro msgs m
    unfold addToContext
    by_cases hgt : nonSystemCount (msgs ++ [m]) > maxMessages
    · simp only [hgt, if_pos]
      exact systemMessages_removeFirstNonSystem (msgs ++ [m])
    · simp only [hgt, if_neg, not_false_iff]
  · intro msgs m
    unfold addToContext
    by_cases hgt : nonSystemCount (msgs ++ [m]) > maxMessages
    · have := length_removeFirstNonSystem (msgs ++ [m]) (by omega)
      simp only [hgt, if_pos]
      simp only [List.length_append, List.length_cons, List.length_nil] at this ⊢
      omega
    · simp only [hgt, if_neg, not_false_iff, List.length_append, List.length_cons,
        List.length_nil]
      omega
  · intro msgs m hgt
    have hdec := removeFirstNonSystem_decomposition (msgs ++ [m]) (by omega)
    unfold addToContext
    simp only [hgt, if_pos]
    exact hdec

def c2m1 : Message := { role := .user, content := "one", timestamp := 1, metadata := none }

def c2m2 : Message := { role := .assistant, content := "two", timestamp := 2, metadata := none }

def c2m3 : Message := { role := .user, content := "three", timestamp := 3, metadata := none }

/-- Witness for C2 at a concrete run: three non-system appends into an
empty window with `max_messages = 2` leave `min 3 2 = 2` non-system
turns. -/
theorem addToContext_window_invariant_witness :
    nonSystemCount [] = 0 ∧
      nonSystemCount (List.foldl (addToContext 2) [] [c2m1, c2m2, c2m3]) =
        min (nonSystemCount [c2m1, c2m2, c2m3]) 2 :=
  ⟨by decide, (addToContext_window_invariant 2 [] (by decide) [c2m1, c2m2, c2m3]).1⟩

/-! ### Lemmas about retrieval (claims C3, C4, C10) -/

theorem totalMessageTokens_cons (tok : String → Nat) (m : Message)
    (l : List Message) :
    totalMessageTokens tok (m :: l) =
      countMessageTokens tok m + totalMessageTokens tok l := by
  simp [totalMessageTokens]

theorem selectRecent_total_le (tok : String → Nat) (maxTokens : Nat) :
    ∀ (l : List Message) (total : Nat),
      total + totalMessageTokens tok (selectRecent tok maxTokens total l) ≤
        max maxTokens total := by
  intro l
  induction l with
  | nil =>
      intro total
      simp [selectRecent, totalMessageTokens]
  | cons m rest ih =>
      intro total
      by_cases hle : total + countMessageTokens tok m ≤ maxTokens
      · have hrec := ih (total + countMessageTokens tok m)
        simp only [selectRecent, hle, if_pos, totalMessageTokens_cons]
        omega
      · simp only [selectRecent, hle, if_neg, not_false_iff]
        simp [totalMessageTokens]

theorem getContext_perm (tok : String → Nat) (maxTokens : Nat)
    (msgs : List Message) :
    (getContext tok maxTokens msgs).Perm
      (systemMessages msgs ++
        selectRecent tok maxTokens (totalMessageTokens tok (systemMessages msgs))
          (nonSystemMessages msgs).reverse) := by
  unfold getContext
  by_cases h : msgs.isEmpty
  · have : msgs = [] := List.isEmpty_iff.mp h
    subst this
    simp [systemMessages, selectRecent]
  · simp only [h, if_neg, not_false_iff]
    exact List.perm_insertionSort msgKeyLe _

/-- C3 (amended): the turns returned by `get_context` cost at most
`max_tokens` unless the system turns together already exceed the budget
(every system turn is always included); the non-system part of the
selection is the greedy most-recent-first walk that stops at the first turn
that would exceed the budget. -/
theorem getContext_token_budget (tok : String → Nat) (maxTokens : Nat)
    (msgs : List Message) :
    totalMessageTokens tok (getContext tok maxTokens msgs) ≤
        max maxTokens (totalMessageTokens tok (systemMessages msgs))
    ∧ (∀ m ∈ msgs, m.role = Role.system → m ∈ getContext tok maxTokens msgs)
    ∧ (getContext tok maxTokens msgs).Perm
        (systemMessages msgs ++
          selectRecent tok maxTokens (totalMessageTokens tok (systemMessages msgs))
            (nonSystemMessages msgs).reverse) := by
  have hperm := getContext_perm tok maxTokens msgs
  refine ⟨?_, ?_, hperm⟩
  · have hsum := (hperm.map (countMessageTokens tok)).sum_eq
    have hbound := selectRecent_total_le tok maxTokens
      (nonSystemMessages msgs).reverse
      (totalMessageTokens tok (systemMessages msgs))
    have happ :
        totalMessageTokens tok
            (systemMessages msgs ++
              selectRecent tok maxTokens
                (totalMessageTokens tok (systemMessages msgs))
                (nonSystemMessages msgs).reverse) =
          totalMessageTokens tok (systemMessages msgs) +
            totalMessageTokens tok
              (selectRecent tok maxTokens
                (totalMessageTokens tok (systemMessages msgs))
                (nonSystemMessages msgs).reverse) := by
      simp [totalMessageTokens]
    have : totalMessageTokens tok (getContext tok maxTokens msgs) =
        totalMessageTokens tok
          (systemMessages msgs ++
            selectRecent tok maxTokens
              (totalMessageTokens tok (systemMessages msgs))
              (nonSystemMessages msgs).reverse) := hsum
    omega
  · intro m hm hrole
    have hmem : m ∈ systemMessages msgs := by
      simp [systemMessages, List.mem_filter, hm, hrole]
    exact hperm.mem_iff.mpr (List.mem_append.mpr (Or.inl hmem))

def c3tok : String → Nat := fun _ => 1

def c3m1 : Message := { role := .system, content := "a", timestamp := 0, metadata := none }

def c3m2 : Message := { role := .system, content := "b", timestamp := 1, metadata := none }

/-- Counterexample to C3 as stated: with a tokenizer that counts one token
per string, two system turns cost 6 tokens each; with budget 10 the
retrieval returns both (they are always included), for a total of 12 > 10,
although no single system turn alone exceeds the budget. -/
theorem getContext_token_budget_counterexample :
    totalMessageTokens c3tok (getContext c3tok 10 [c3m1, c3m2]) = 12 ∧
      10 < 12 ∧
      countMessageTokens c3tok c3m1 ≤ 10 ∧
      countMessageTokens c3tok c3m2 ≤ 10 := by
  refine ⟨by decide, by decide, by decide, by decide⟩

/-- Witness for C3 (amended) at a concrete input: the single system turn of
a one-turn window is returned. -/
theorem getContext_token_budget_witness :
    c3m1 ∈ getContext c3tok 10 [c3m1] :=
  (getContext_token_budget c3tok 10 [c3m1]).2.1 c3m1 (by decide) (by decide)

theorem msgKeyLe_cases (a b : Message) (h : msgKeyLe a b) :
    (a.role = Role.system ∧ b.role ≠ Role.system) ∨
      ((a.role = Role.system ↔ b.role = Role.system) ∧ a.timestamp ≤ b.timestamp) := by
  unfold msgKeyLe sortRank at h
  by_cases ha : a.role = Role.system <;> by_cases hb : b.role = Role.system <;>
    simp [ha, hb] at h ⊢ <;> omega

/-- C4: the returned sequence places every system turn before every
non-system turn regardless of timestamps, is chronologically ordered inside
each of the two groups, and an empty window yields the empty sequence. -/
theorem getContext_ordering (tok : String → Nat) (maxTokens : Nat)
    (msgs : List Message) :
    List.Pairwise
      (fun a b =>
        (a.role = Role.system ∧ b.role ≠ Role.system) ∨
          ((a.role = Role.system ↔ b.role = Role.system) ∧
            a.timestamp ≤ b.timestamp))
      (getContext tok maxTokens msgs)
    ∧ getContext tok maxTokens [] = [] := by
  constructor
  · unfold getContext
    by_cases h : msgs.isEmpty
    · simp [h]
    · simp only [h, if_neg, not_false_iff]
      exact (List.sorted_insertionSort msgKeyLe _).imp
        (fun hab => msgKeyLe_cases _ _ hab)
  · rfl

/-- C10: `get_context` never writes to the manager: the message list, the
window limit and the model name after a retrieval are the ones before it,
and therefore retrieving again from the manager a retrieval returns gives
the same result sequence. -/
theorem getContextS_readonly (cm : ContextManager) (tok : String → Nat)
    (maxTokens : Nat) :
    (cm.getContextS tok maxTokens).2.messages = cm.messages
    ∧ (cm.getContextS tok maxTokens).2.maxMessages = cm.maxMessages
    ∧ (cm.getContextS tok maxTokens).2.modelName = cm.modelName
    ∧ ((cm.getContextS tok maxTokens).2.getContextS tok maxTokens).1 =
        (cm.getContextS tok maxTokens).1 :=
  ⟨rfl, rfl, rfl, rfl⟩

/-! ## Summarization (`ContextManager.summarize_old_context`, claim C9) -/

/-- The summary-marker Korean text `"이전 대화 요약: "` prefixed to the
summary when it is wrapped as a system message. -/
def summaryMarker : String := "이전 대화 요약: "

def errNotEnoughMessages : String := "요약할 메시지가 충분하지 않습니다"

def errNoMessages : String := "요약할 메시지가 없습니다"

def errEmptyContent : String := "메시지 내용은 비어있을 수 없습니다"

/-- `ContextManager.summarize_old_context`: fail when fewer than two
messages exist, fail when there is no non-system message, otherwise call
the summarizer on the ordered non-system messages, wrap the summary as a
system message (built through the pydantic `Message` constructor, whose
content validator strips the text; its timestamp defaults to the current
clock `now`), and replace the message list with the system messages plus
that one summary message, returning the raw summary. -/
def summarizeOldContext (f : List Message → String) (now : Int)
    (msgs : List Message) : Except String (String × List Message) :=
  if msgs.length < 2 then .error errNotEnoughMessages
  else
    let messagesToSummarize := nonSystemMessages msgs
    if messagesToSummarize.isEmpty then .error errNoMessages
    else
      let summary := f messagesToSummarize
      match mkMessage Role.system (summaryMarker ++ summary) now none with
      | none => .error errEmptyContent
      | some summaryMessage =>
          .ok (summary, systemMessages msgs ++ [summaryMessage])

theorem pyStrip_summaryMarker_append_ne (s : String) :
    pyStrip (summaryMarker ++ s) ≠ "" := by
  intro hcontra
  have hdata : (pyStrip (summaryMarker ++ s)).data = [] := by
    rw [hcontra]
  unfold pyStrip at hdata
  set l := (summaryMarker ++ s).data with hl
  have h1 : ((l.dropWhile Char.isWhitespace).reverse.dropWhile
      Char.isWhitespace).reverse = [] := hdata
  have h2 : (l.dropWhile Char.isWhitespace).reverse.dropWhile
      Char.isWhitespace = [] := by
    simpa using congrArg List.reverse h1
  have h3 : ∀ x ∈ (l.dropWhile Char.isWhitespace).reverse, x.isWhitespace := by
    simpa [List.dropWhile_eq_nil_iff] using h2
  have hmem : (Char.ofNat 51060) ∈ l := by
    have : (Char.ofNat 51060) ∈ summaryMarker.data := by decide
    rw [hl]
    have happ : (summaryMarker ++ s).data = summaryMarker.data ++ s.data := by
      cases s with
      | mk d => rfl
    rw [happ]
    exact List.mem_append.mpr (Or.inl this)
  have hws : (Char.ofNat 51060).isWhitespace = false := by decide
  have hsplit := List.takeWhile_append_dropWhile (p := Char.isWhitespace) (l := l)
  have hmem2 : (Char.ofNat 51060) ∈ l.dropWhile Char.isWhitespace := by
    rcases List.mem_append.mp (by rw [hsplit]; exact hmem) with h | h
    · have := List.mem_takeWhile_imp h
      rw [hws] at this
      exact absurd this (by simp)
    · exact h
  have := h3 (Char.ofNat 51060) (List.mem_reverse.mpr hmem2)
  rw [hws] at this
  exact absurd this (by simp)

theorem mkMessage_summaryMarker (s : String) (now : Int) :
    mkMessage Role.system (summaryMarker ++ s) now none =
      some { role := Role.system, content := pyStrip (summaryMarker ++ s),
             timestamp := now, metadata := none } := by
  unfold mkMessage validateContent
  simp [pyStrip_summaryMarker_append_ne s]

/-- C9: `summarize_old_context` fails with an insufficient-content error
exactly when fewer than two messages exist or no non-system message
exists; otherwise it applies the summarizer to the ordered non-system
messages, returns the raw summary, and replaces the window content with
the system messages followed by one system message carrying the
marker-prefixed summary. -/
theorem summarizeOldContext_contract (f : List Message → String) (now : Int)
    (msgs : List Message) :
    ((∃ e, summarizeOldContext f now msgs = .error e) ↔
        (msgs.length < 2 ∨ nonSystemMessages msgs = []))
    ∧ (2 ≤ msgs.length → nonSystemMessages msgs ≠ [] →
        summarizeOldContext f now msgs =
          .ok (f (nonSystemMessages msgs),
            systemMessages msgs ++
              [{ role := Role.system,
                 content := pyStrip (summaryMarker ++ f (nonSystemMessages msgs)),
                 timestamp := now, metadata := none }])) := by
  constructor
  · constructor
    · rintro ⟨e, he⟩
      by_contra hnot
      push_neg at hnot
      obtain ⟨hlen, hns⟩ := hnot
      rw [summarizeOldContext] at he
      rw [if_neg (by omega)] at he
      have hne : (nonSystemMessages msgs).isEmpty = false := by
        simpa [List.isEmpty_iff] using hns
      simp [hne, mkMessage_summaryMarker] at he
    · intro h
      rcases h with h | h
      · exact ⟨errNotEnoughMessages, by rw [summarizeOldContext]; simp [h]⟩
      · by_cases hlen : msgs.length < 2
        · exact ⟨errNotEnoughMessages, by rw [summarizeOldContext]; simp [hlen]⟩
        · refine ⟨errNoMessages, ?_⟩
          rw [summarizeOldContext]
          rw [if_neg hlen]
          simp [h]
  · intro hlen hns
    rw [summarizeOldContext]
    rw [if_neg (by omega)]
    have hne : (nonSystemMessages msgs).isEmpty = false := by
      simpa [List.isEmpty_iff] using hns
    simp only [hne, Bool.false_eq_true, if_neg, not_false_iff]
    rw [mkMessage_summaryMarker]

def c9f : List Message → String := fun _ => "요약본"

def c9m1 : Message := { role := .user, content := "질문", timestamp := 0, metadata := none }

def c9m2 : Message := { role := .assistant, content := "답변", timestamp := 1, metadata := none }

/-- Witness for C9: a two-turn window is summarized into the single marked
system turn, and the raw summary string is returned. -/
theorem summarizeOldContext_contract_witness :
    2 ≤ ([c9m1, c9m2] : List Message).length ∧
      nonSystemMessages [c9m1, c9m2] ≠ [] ∧
      summarizeOldContext c9f 5 [c9m1, c9m2] =
        .ok (c9f (nonSystemMessages [c9m1, c9m2]),
          systemMessages [c9m1, c9m2] ++
            [{ role := Role.system,
               content := pyStrip (summaryMarker ++ c9f (nonSystemMessages [c9m1, c9m2])),
               timestamp := 5, metadata := none }]) :=
  ⟨by decide, by decide,
    (summarizeOldContext_contract c9f 5 [c9m1, c9m2]).2 (by decide) (by decide)⟩

/-! ## Persistence of a context window
(`ContextManager.save_to_file` / `load_from_file`, claim C1)

File-system I/O is abstracted away: `save_to_file` is modelled as producing
the JSON document it writes, and `load_from_file` as consuming such a
document. ISO-8601 serialisation round-trips an instant, so a serialised
timestamp is modelled by the instant itself. -/

/-- One entry of the `"messages"` array written by `save_to_file`:
role string, content, timestamp (ISO-8601) and metadata. -/
structure SavedMessage where
  role : String
  content : String
  timestamp : Int
  metadata : Option Metadata
deriving DecidableEq, Repr

/-- The JSON document written by `save_to_file`: model name, max messages,
and the message array. -/
structure SavedContext where
  modelName : String
  maxMessages : Nat
  messages : List SavedMessage
deriving DecidableEq, Repr

/-- `ContextManager.save_to_file`: serialise model name, `max_messages` and
every message with role, content, `timestamp.isoformat()` and metadata. -/
def saveToFile (cm : ContextManager) : SavedContext :=
  { modelName := cm.modelName
    maxMessages := cm.maxMessages
    messages := cm.messages.map fun m =>
      { role := m.role.toString, content := m.content,
        timestamp := m.timestamp, metadata := m.metadata } }

def errBadFormat : String := "잘못된 파일 형식"

/-- One `Message(role=…, content=…, metadata=…)` reconstruction inside
`load_from_file`: pydantic validates the role literal and the content; the
`timestamp` keyword is NOT passed, so the field takes its pydantic default
`datetime.now()` — the load-time clock, not the saved value. -/
def loadMessage (loadTime : Int) (sm : SavedMessage) : Except String Message :=
  match Role.ofString? sm.role with
  | none => .error errBadFormat
  | some r =>
      match mkMessage r sm.content loadTime sm.metadata with
      | none => .error errBadFormat
      | some m => .ok m

/-- `ContextManager.load_from_file` applied to a parsed document: replace
model name, `max_messages` and the message list of the manager with the
loaded data (the document always carries all three keys, so the
`data.get(…, default)` fallbacks do not fire on a saved document). -/
def loadFromFile (_cm : ContextManager) (data : SavedContext) (loadTime : Int) :
    Except String ContextManager := do
  let msgs ← data.messages.mapM (loadMessage loadTime)
  pure { modelName := data.modelName, maxMessages := data.maxMessages,
         messages := msgs }

def c1ModelName : String := "gpt-4"

def c1Manager : ContextManager :=
  { messages := [{ role := Role.user, content := "hello", timestamp := 100,
                   metadata := none }],
    maxMessages := 10, modelName := c1ModelName }

def c1Empty : ContextManager :=
  { messages := [], maxMessages := 10, modelName := c1ModelName }

/-- C1 failing input: a window holding one user turn with timestamp 100,
saved and then loaded at clock reading 999. Model name, max turns, role and
content round-trip, but the loaded turn carries the load-time timestamp
999, not the saved timestamp 100 — `load_from_file` never reads the
`"timestamp"` field it saved (unlike the parallel `AgentState.from_dict`,
which restores message timestamps). -/
theorem loadFromFile_drops_timestamps :
    loadFromFile c1Empty (saveToFile c1Manager) 999 =
      .ok { messages := [{ role := Role.user, content := "hello",
                           timestamp := 999, metadata := none }],
            maxMessages := 10, modelName := c1ModelName }
    ∧ c1Manager.messages.map Message.timestamp = [100]
    ∧ (999 : Int) ≠ 100 :=
  ⟨rfl, rfl, by decide⟩

/-! ## StateManager (src/agent/state_manager.py, claims C5 and C6) -/

/-- The exception classes imported from `src/agent/storage/base.py` (the
module itself is not among the analysed sources; only the class identities
matter here): `NotFoundError` and `StorageError`. -/
inductive StorageExc where
  | notFound (msg : String)
  | storageError (msg : String)
deriving DecidableEq, Repr

/-- The fields of the pydantic `AgentState` model that `get_session` /
`delete_session` / `is_expired` consult; the payload fields
(`conversation`, `user_preferences`, `plugin_data`, `created_at`,
`updated_at`) play no role in the claims and are omitted. -/
structure AgentState where
  sessionId : String
  userId : Option String
  expiresAt : Option Int
deriving DecidableEq, Repr

/-- `AgentState.is_expired`: `False` when `expires_at` is `None`, otherwise
`datetime.now() > expires_at`. -/
def AgentState.isExpired (s : AgentState) (now : Int) : Bool :=
  match s.expiresAt with
  | none => false
  | some t => now > t

/-- Python `str.replace` for a single-character pattern: replace every
occurrence of the character. -/
def replaceChar (pat repl : Char) (s : String) : String :=
  ⟨s.data.map fun c => if c = pat then repl else c⟩

/-- `JSONStorage._get_file_path` key sanitisation:
`key.replace("/", "_").replace("\\", "_")`. -/
def sanitizeKey (k : String) : String :=
  replaceChar ('\\') ('_') (replaceChar ('/') ('_') k)

/-- The state of a `StateManager` backed by a `JSONStorage`: the in-memory
session cache (a dict keyed by session id) and the backing store (one JSON
file per sanitised key). A stored document is modelled by the `AgentState`
it deserialises to: `to_dict` / `from_dict` preserve every modelled field
(`expires_at` round-trips through `isoformat` / `fromisoformat`). -/
structure StateManager where
  sessions : String → Option AgentState
  store : String → Option AgentState

def errSessionNotFound (sessionId : String) : String :=
  "세션을 찾을 수 없습니다: " ++ sessionId

def errSessionExpired (sessionId : String) : String :=
  "세션이 만료됨: " ++ sessionId

/-- `StateManager.delete_session`, returning the state after the call and
the raised exception, if any. Mirrors the source order: the memory entry is
removed first; then `storage.delete` runs, raising `NotFoundError` when the
file is absent; that exception is swallowed unless
`session_id not in self.sessions` — a test evaluated AFTER the memory
removal. -/
def deleteSession (st : StateManager) (sessionId : String) :
    StateManager × Option StorageExc :=
  let sessions' := fun k => if k = sessionId then none else st.sessions k
  match st.store (sanitizeKey sessionId) with
  | some _ =>
      ({ sessions := sessions',
         store := fun k => if k = sanitizeKey sessionId then none else st.store k },
       none)
  | none =>
      if (sessions' sessionId).isSome then
        ({ sessions := sessions', store := st.store }, none)
      else
        ({ sessions := sessions', store := st.store },
         some (.notFound (errSessionNotFound sessionId)))

/-- `StateManager.get_session`, returning the state after the call and the
result. Memory cache first: an expired hit is deleted (an exception raised
by that `delete_session` propagates, since this call is outside the `try`
block) and `NotFoundError` is raised. On a memory miss the backing store is
consulted inside a `try … except NotFoundError` whose handler re-raises a
fresh `NotFoundError`; an expired loaded session is deleted and the expiry
`NotFoundError` raised inside the block is caught and re-raised by that
handler. A live loaded session is cached in memory and returned. -/
def getSession (st : StateManager) (sessionId : String) (now : Int) :
    StateManager × Except StorageExc AgentState :=
  match st.sessions sessionId with
  | some state =>
      if state.isExpired now then
        match deleteSession st sessionId with
        | (st', some e) => (st', .error e)
        | (st', none) => (st', .error (.notFound (errSessionExpired sessionId)))
      else (st, .ok state)
  | none =>
      match st.store (sanitizeKey sessionId) with
      | none => (st, .error (.notFound (errSessionNotFound sessionId)))
      | some data =>
          let state := data
          if state.isExpired now then
            match deleteSession st sessionId with
            | (st', _) => (st', .error (.notFound (errSessionNotFound sessionId)))
          else
            ({ st with
                sessions := fun k => if k = sessionId then some state else st.sessions k },
             .ok state)

/-- Whether a `get_session` outcome is a raised `NotFoundError`. -/
def isNotFoundErr : Except StorageExc AgentState → Bool
  | .error (.notFound _) => true
  | _ => false

def s1 : String := "s1"

def c5Session : AgentState := { sessionId := s1, userId := none, expiresAt := none }

def c5St : StateManager :=
  { sessions := fun k => if k = s1 then some c5Session else none,
    store := fun _ => none }

/-- C5 failing input: a session resident in the memory cache but absent
from the backing store. `delete_session` first removes it from memory; the
subsequent `storage.delete` raises `NotFoundError`, and the guard
`session_id not in self.sessions` is then always true (the entry was just
deleted), so the call raises "not found" although the session was present
in memory. -/
theorem deleteSession_memory_only_raises :
    (c5St.sessions s1).isSome = true
    ∧ (deleteSession c5St s1).2 =
        some (StorageExc.notFound (errSessionNotFound s1))
    ∧ (deleteSession c5St s1).1.sessions s1 = none :=
  ⟨rfl, rfl, rfl⟩

/-- C6: when every copy of a session that `get_session` could consult (the
memory-cache entry and the backing-store document) is expired at the
current clock, `get_session` raises a `NotFoundError` — it never returns
the session — and afterwards the session is present neither in the memory
cache nor in the backing store. -/
theorem getSession_expired_unreachable (st : StateManager) (sessionId : String)
    (now : Int)
    (hmem : ∀ s, st.sessions sessionId = some s → s.isExpired now = true)
    (hstore : ∀ s, st.store (sanitizeKey sessionId) = some s →
        s.isExpired now = true) :
    isNotFoundErr (getSession st sessionId now).2 = true
    ∧ (getSession st sessionId now).1.sessions sessionId = none
    ∧ (getSession st sessionId now).1.store (sanitizeKey sessionId) = none := by
  unfold getSession
  cases hm : st.sessions sessionId with
  | some state =>
      have hexp := hmem state hm
      simp only [hexp, if_pos]
      unfold deleteSession
      cases hs : st.store (sanitizeKey sessionId) with
      | some d => simp [isNotFoundErr]
      | none => simp [isNotFoundErr, hs]
  | none =>
      cases hs : st.store (sanitizeKey sessionId) with
      | some d =>
          have hexp := hstore d hs
          simp only [hexp, if_pos]
          unfold deleteSession
          cases hs2 : st.store (sanitizeKey sessionId) with
          | some d2 => simp [isNotFoundErr]
          | none => simp [isNotFoundErr, hm, hs2]
      | none => simp [isNotFoundErr, hm, hs]

def c6Expired : AgentState := { sessionId := s1, userId := none, expiresAt := some 50 }

def c6St : StateManager :=
  { sessions := fun k => if k = s1 then some c6Expired else none,
    store := fun k => if k = sanitizeKey s1 then some c6Expired else none }

/-- Witness for C6: a session in both tiers whose `expires_at = 50` lies
before the clock reading 100 is unreachable and purged from both tiers. -/
theorem getSession_expired_unreachable_witness :
    isNotFoundErr (getSession c6St s1 100).2 = true
    ∧ (getSession c6St s1 100).1.sessions s1 = none
    ∧ (getSession c6St s1 100).1.store (sanitizeKey s1) = none :=
  getSession_expired_unreachable c6St s1 100
    (by
      intro s hs
      rw [show c6St.sessions s1 = some c6Expired from rfl] at hs
      cases hs
      decide)
    (by
      intro s hs
      rw [show c6St.store (sanitizeKey s1) = some c6Expired from rfl] at hs
      cases hs
      decide)

/-! ## Plugin registry (src/agent/plugins/base.py, claims C7 and C8) -/

/-- Python exceptions observable in the plugin layer: `PluginError`,
`PluginExecutionError` (its subclass used for wrapped execution failures),
and arbitrary other exceptions a plugin body may throw. -/
inductive PyExc where
  | pluginError (msg : String)
  | pluginExecutionError (msg : String)
  | otherError (msg : String)
deriving DecidableEq, Repr

/-- `str(e)` of an exception, as interpolated into wrapping messages. -/
def PyExc.msg : PyExc → String
  | .pluginError m => m
  | .pluginExecutionError m => m
  | .otherError m => m

/-- The value returned by `plugin.get_schema()`, as far as
`_validate_plugin` inspects it: a dict with its key set, or a non-dict
value. -/
inductive SchemaVal where
  | dict (keys : List String)
  | nonDict
deriving DecidableEq, Repr

/-- A `BasePlugin` instance. The `name` / `description` / `version`
properties and `get_schema()` / `initialize()` are attribute accesses and
calls that may raise, modelled as fixed `Except` outcomes; `execute` maps a
context to a result map or an exception; `enabled` is the mutable flag set
by `enable_plugin` / `disable_plugin`. The context and result-map types are
arbitrary (`κ`, `ρ`). -/
structure Plugin (κ ρ : Type) where
  nameAttr : Except PyExc String
  descriptionAttr : Except PyExc String
  versionAttr : Except PyExc String
  getSchema : Except PyExc SchemaVal
  initPlugin : Except PyExc Unit
  execPlugin : κ → Except PyExc ρ
  enabled : Bool

/-- `PluginManager`: the `plugins` dict keyed by plugin name. -/
structure PluginManager (κ ρ : Type) where
  plugins : String → Option (Plugin κ ρ)

/-- A `PluginManager()` with no registered plugin. -/
def emptyPluginManager (κ ρ : Type) : PluginManager κ ρ :=
  { plugins := fun _ => none }

def errMissingAttr (m : String) : String := "필수 속성 누락: " ++ m

def errInvalidSchema : String := "유효하지 않은 스키마 형식"

def errSchemaValidation (m : String) : String := "스키마 검증 실패: " ++ m

def errRegisterFailed (m : String) : String := "플러그인 등록 실패: " ++ m

def errPluginNotFound (n : String) : String := "플러그인을 찾을 수 없습니다: " ++ n

def errPluginDisabled (n : String) : String := "플러그인이 비활성화됨: " ++ n

def errExecFailed (m : String) : String := "플러그인 실행 실패: " ++ m

def schemaNameKey : String := "name"

/-- `PluginManager._validate_plugin`, returning the exception it raises, if
any. The `isinstance(plugin, BasePlugin)` test always passes in the typed
model. Accessing `name`, `description`, `version` in order: a raise is
wrapped as "필수 속성 누락". Then `get_schema()` is called inside its own
`try`: a raise, a non-dict result, or a dict without a `"name"` key all
surface as "스키마 검증 실패" (the inner "유효하지 않은 스키마 형식" raise is
caught and wrapped by the same handler). Note that no emptiness check is
performed on the attribute strings. -/
def validatePlugin {κ ρ : Type} (p : Plugin κ ρ) : Option PyExc :=
  match p.nameAttr with
  | .error e => some (.pluginError (errMissingAttr e.msg))
  | .ok _ =>
      match p.descriptionAttr with
      | .error e => some (.pluginError (errMissingAttr e.msg))
      | .ok _ =>
          match p.versionAttr with
          | .error e => some (.pluginError (errMissingAttr e.msg))
          | .ok _ =>
              match p.getSchema with
              | .error e => some (.pluginError (errSchemaValidation e.msg))
              | .ok (.dict keys) =>
                  if schemaNameKey ∈ keys then none
                  else some (.pluginError (errSchemaValidation errInvalidSchema))
              | .ok .nonDict =>
                  some (.pluginError (errSchemaValidation errInvalidSchema))

/-- The `except` handler of `register_plugin`. Its first statement is the
log call whose f-string accesses `plugin.name` again: when the `name`
property itself raises, that raw exception propagates out of the handler
and the wrapping `raise PluginError(f"플러그인 등록 실패: {e}")` on the next
line is never reached; only when the re-access succeeds is the caught
exception wrapped. -/
def registerHandler {κ ρ : Type} (p : Plugin κ ρ) (e : PyExc) : Option PyExc :=
  match p.nameAttr with
  | .error e2 => some e2
  | .ok _ => some (.pluginError (errRegisterFailed e.msg))

/-- `PluginManager.register_plugin`: validate, (a duplicate name only logs
a warning), call `plugin.initialize()`, then store the plugin keyed by its
name; any exception inside the `try` reaches the `except` handler
(`registerHandler`), and in every error path the registry is left
unchanged. -/
def registerPlugin {κ ρ : Type} (m : PluginManager κ ρ) (p : Plugin κ ρ) :
    PluginManager κ ρ × Option PyExc :=
  match validatePlugin p with
  | some e => (m, registerHandler p e)
  | none =>
      match p.nameAttr with
      | .error e => (m, registerHandler p e)
      | .ok pname =>
          match p.initPlugin with
          | .error e => (m, registerHandler p e)
          | .ok _ =>
              ({ plugins := fun k => if k = pname then some p else m.plugins k },
               none)

/-- `PluginManager.execute_plugin`: "not found" when the name is
unregistered; "disabled" when the stored plugin's `enabled` flag is false
(the plugin's `execute` is not reached); otherwise `plugin.execute(context)`
runs and its result map is returned unchanged, any exception being wrapped
as a `PluginExecutionError` "플러그인 실행 실패: …". -/
def executePlugin {κ ρ : Type} (m : PluginManager κ ρ) (pname : String)
    (context : κ) : Except PyExc ρ :=
  match m.plugins pname with
  | none => .error (.pluginError (errPluginNotFound pname))
  | some p =>
      if p.enabled = false then .error (.pluginError (errPluginDisabled pname))
      else
        match p.execPlugin context with
        | .ok result => .ok result
        | .error e => .error (.pluginExecutionError (errExecFailed e.msg))

/-- `PluginManager.disable_plugin`: look the plugin up (raising "not found"
when absent) and clear its `enabled` flag; the registry holds the object,
so the stored entry is the mutated plugin. -/
def disablePlugin {κ ρ : Type} (m : PluginManager κ ρ) (pname : String) :
    PluginManager κ ρ × Option PyExc :=
  match m.plugins pname with
  | none => (m, some (.pluginError (errPluginNotFound pname)))
  | some p =>
      ({ plugins := fun k =>
          if k = pname then some { p with enabled := false } else m.plugins k },
       none)

/-- C8: executing an enabled registered plugin passes the given context to
its `execute` and returns the result map unchanged; after `disable_plugin`
the same name fails with the "disabled" condition — and since this holds
for every manager, hence for every possible `execute` function of the
stored plugin, the plugin body is not consulted; an unregistered name fails
"not found"; an exception from the plugin body is wrapped as
`PluginExecutionError` "실행 실패". -/
theorem executePlugin_gating (κ ρ : Type) (m : PluginManager κ ρ)
    (pname : String) (context : κ) :
    (∀ p r, m.plugins pname = some p → p.enabled = true →
        p.execPlugin context = .ok r → executePlugin m pname context = .ok r)
    ∧ (∀ p, m.plugins pname = some p →
        (disablePlugin m pname).2 = none ∧
          executePlugin (disablePlugin m pname).1 pname context =
            .error (.pluginError (errPluginDisabled pname)))
    ∧ (m.plugins pname = none →
        executePlugin m pname context =
          .error (.pluginError (errPluginNotFound pname)))
    ∧ (∀ p e, m.plugins pname = some p → p.enabled = true →
        p.execPlugin context = .error e →
        executePlugin m pname context =
          .error (.pluginExecutionError (errExecFailed e.msg))) := by
  refine ⟨?_, ?_, ?_, ?_⟩
  · intro p r hp hen hex
    unfold executePlugin
    rw [hp]
    simp [hen, hex]
  · intro p hp
    unfold disablePlugin
    rw [hp]
    refine ⟨rfl, ?_⟩
    unfold executePlugin
    simp
  · intro hp
    unfold executePlugin
    rw [hp]
  · intro p e hp hen hex
    unfold executePlugin
    rw [hp]
    simp [hen, hex]

def calcName : String := "calc"

def absentName : String := "ghost"

def c8Plugin : Plugin Nat Nat :=
  { nameAttr := .ok calcName
    descriptionAttr := .ok calcName
    versionAttr := .ok calcName
    getSchema := .ok (.dict [schemaNameKey])
    initPlugin := .ok ()
    execPlugin := fun n => .ok (n + 1)
    enabled := true }

def c8Manager : PluginManager Nat Nat :=
  { plugins := fun k => if k = calcName then some c8Plugin else none }

/-- Witness for C8 on a concrete registry holding one enabled plugin. -/
theorem executePlugin_gating_witness :
    executePlugin c8Manager calcName 41 = .ok 42
    ∧ executePlugin (disablePlugin c8Manager calcName).1 calcName 41 =
        .error (.pluginError (errPluginDisabled calcName))
    ∧ executePlugin c8Manager absentName 41 =
        .error (.pluginError (errPluginNotFound absentName)) :=
  ⟨(executePlugin_gating Nat Nat c8Manager calcName 41).1 c8Plugin 42 rfl rfl rfl,
    ((executePlugin_gating Nat Nat c8Manager calcName 41).2.1 c8Plugin rfl).2,
    (executePlugin_gating Nat Nat c8Manager absentName 41).2.2.1 rfl⟩

def emptyName : String := ""

def c7EmptyAttrPlugin : Plugin Nat Nat :=
  { nameAttr := .ok emptyName
    descriptionAttr := .ok emptyName
    versionAttr := .ok emptyName
    getSchema := .ok (.dict [schemaNameKey])
    initPlugin := .ok ()
    execPlugin := fun n => .ok n
    enabled := true }

/-- Counterexample to C7 as stated: a plugin whose `name`, `description`
and `version` are all the empty string passes `_validate_plugin` (which
only checks that the attribute accesses do not raise, never that the
strings are non-empty), so `register_plugin` succeeds and stores the plugin
under the empty-string key instead of failing. -/
theorem registerPlugin_accepts_empty_attrs :
    (registerPlugin (emptyPluginManager Nat Nat) c7EmptyAttrPlugin).2 = none
    ∧ (registerPlugin (emptyPluginManager Nat Nat) c7EmptyAttrPlugin).1.plugins
        emptyName = some c7EmptyAttrPlugin :=
  ⟨rfl, rfl⟩

/-- C7 (amended): for every plugin whose `name`, `description` and
`version` properties are accessible, `register_plugin` fails with the
"플러그인 등록 실패" wrapping error and leaves the registry unchanged when
the schema is not a dict or lacks a `"name"` key, and likewise when the
schema is valid but `initialize()` raises (the error wrapping that cause);
emptiness of the attribute strings is not checked. (The accessible-name
hypothesis is needed for the wrap: the `except` handler re-accesses
`plugin.name`, so a raising `name` property would propagate raw.) -/
theorem registerPlugin_failure_conditions (κ ρ : Type) (m : PluginManager κ ρ)
    (p : Plugin κ ρ)
    (hname : ∃ n, p.nameAttr = .ok n)
    (hdesc : ∃ d, p.descriptionAttr = .ok d)
    (hver : ∃ v, p.versionAttr = .ok v)
    (h : p.getSchema = .ok .nonDict
       ∨ (∃ keys, p.getSchema = .ok (.dict keys) ∧ schemaNameKey ∉ keys)
       ∨ ((∃ keys, p.getSchema = .ok (.dict keys) ∧ schemaNameKey ∈ keys)
           ∧ ∃ e, p.initPlugin = .error e)) :
    (∃ msg, (registerPlugin m p).2 =
        some (.pluginError (errRegisterFailed msg)))
    ∧ (registerPlugin m p).1 = m := by
  obtain ⟨n, hn⟩ := hname
  obtain ⟨d, hd⟩ := hdesc
  obtain ⟨v, hv⟩ := hver
  have hhandler : ∀ e, registerHandler p e =
      some (.pluginError (errRegisterFailed e.msg)) := by
    intro e
    unfold registerHandler
    rw [hn]
  rcases h with hs | ⟨keys, hs, hk⟩ | ⟨⟨keys, hs, hk⟩, e, hinit⟩
  · have hval : validatePlugin p =
        some (.pluginError (errSchemaValidation errInvalidSchema)) := by
      unfold validatePlugin
      rw [hn, hd, hv, hs]
    constructor
    · refine ⟨errSchemaValidation errInvalidSchema, ?_⟩
      unfold registerPlugin
      rw [hval]
      exact hhandler _
    · unfold registerPlugin
      rw [hval]
  · have hval : validatePlugin p =
        some (.pluginError (errSchemaValidation errInvalidSchema)) := by
      unfold validatePlugin
      simp only [hn, hd, hv, hs]
      rw [if_neg hk]
    constructor
    · refine ⟨errSchemaValidation errInvalidSchema, ?_⟩
      unfold registerPlugin
      rw [hval]
      exact hhandler _
    · unfold registerPlugin
      rw [hval]
  · have hval : validatePlugin p = none := by
      unfold validatePlugin
      simp only [hn, hd, hv, hs]
      rw [if_pos hk]
    constructor
    · refine ⟨e.msg, ?_⟩
      unfold registerPlugin
      rw [hval, hn, hinit]
      exact hhandler e
    · unfold registerPlugin
      rw [hval, hn, hinit]

def c7BadSchemaPlugin : Plugin Nat Nat :=
  { nameAttr := .ok calcName
    descriptionAttr := .ok calcName
    versionAttr := .ok calcName
    getSchema := .ok .nonDict
    initPlugin := .ok ()
    execPlugin := fun n => .ok n
    enabled := true }

/-- Witness for C7 (amended): registering a plugin whose schema is not a
dict leaves the registry unchanged. -/
theorem registerPlugin_failure_conditions_witness :
    (registerPlugin (emptyPluginManager Nat Nat) c7BadSchemaPlugin).1 =
      emptyPluginManager Nat Nat :=
  (registerPlugin_failure_conditions Nat Nat (emptyPluginManager Nat Nat)
    c7BadSchemaPlugin ⟨calcName, rfl⟩ ⟨calcName, rfl⟩ ⟨calcName, rfl⟩
    (Or.inl rfl)).2

end VibeAgent
